import Mathlib

/-
  Verification development for the Gnoke-Manifest storage and booking layer.

  The JavaScript data-access functions of src/scripts/db-config.js (which also
  carries db-booking.js, db-history.js) and the engine of src/scripts/db-core.js
  are shallowly embedded: each SQL statement is rendered as the corresponding
  pure operation on an explicit record of tables, and the engine state
  (database handle, dirty flag, backing store, transaction flag) is threaded
  explicitly.  Parts of the repository that are not under src/ (the SQLite
  schema with its capacity trigger, the sql.js binary image format, the
  engine-level BEGIN/ROLLBACK semantics) are modelled from the spec and marked
  as such in their doc comments.
-/

namespace Gnoke

/-- A row of the places table (id, name, optional state reference). -/
structure Place where
  id : Nat
  name : String
  stateId : Option Nat
deriving DecidableEq, Repr

/-- A row of the vehicles table: a type label and a seat capacity. -/
structure Vehicle where
  id : Nat
  vtype : String
  capacity : Nat
deriving DecidableEq, Repr

/-- A row of the routes table: directed (departure, destination) pair bound to a
vehicle, with two nullable fares. -/
structure Route where
  id : Nat
  departureId : Nat
  destinationId : Nat
  vehicleId : Nat
  priceAc : Option Int
  priceNoAc : Option Int
deriving DecidableEq, Repr

/-- A row of the drivers table, keyed externally by phone number. -/
structure Driver where
  id : Nat
  name : String
  phone : String
  vehicleNo : String
deriving DecidableEq, Repr

/-- A row of the trips table: one scheduled run of a route with a unique
booking code, a driver, a plate, an AC flag and a timestamp. -/
structure Trip where
  id : Nat
  bookingCode : String
  routeId : Nat
  driverId : Nat
  vehicleNo : String
  hasAc : Bool
  bookedAt : String
deriving DecidableEq, Repr

/-- A row of the passengers table, owned by exactly one trip. -/
structure Passenger where
  id : Nat
  tripId : Nat
  name : String
  phone : String
  gender : String
deriving DecidableEq, Repr

/-- The in-memory database image: all tables plus the next rowid for each table
that the embedded operations insert into. -/
structure AppDB where
  places : List Place
  vehicles : List Vehicle
  routes : List Route
  drivers : List Driver
  trips : List Trip
  passengers : List Passenger
  nextRouteId : Nat
  nextDriverId : Nat
  nextTripId : Nat
  nextPassengerId : Nat
deriving DecidableEq, Repr

/-- Errors surfaced by the engine and by the schema-level constraints. -/
inductive EngErr where
  | notInitialised
  | txAlreadyOpen
  | backingStore
  | fullyBooked
  | fkViolation
  | nullEngine
  | other (msg : String)
deriving DecidableEq, Repr

/-- Number of passenger rows attached to the given trip
(SELECT COUNT of passengers WHERE trip_id = tripId). -/
def passengerCount (db : AppDB) (tripId : Nat) : Nat :=
  db.passengers.countP (fun p => p.tripId == tripId)

/-- Capacity of the vehicle serving the given trip, through the
trips → routes → vehicles joins; none when a join fails. -/
def capacityOfTrip (db : AppDB) (tripId : Nat) : Option Nat :=
  match db.trips.find? (fun t => t.id == tripId) with
  | none => none
  | some t =>
    match db.routes.find? (fun r => r.id == t.routeId) with
    | none => none
    | some r =>
      match db.vehicles.find? (fun v => v.id == r.vehicleId) with
      | none => none
      | some v => some v.capacity

/-- Modelled from the spec: the capacity-enforcement trigger and the
foreign-key check live in the bundled SQLite schema (data/manifest.db), which
is not under src/.  Per sections 3 and 4.1 of the spec the insert of a
passenger row fails atomically, as part of the same statement, when the trip
does not exist (foreign keys are ON) or when the trip is already at the
capacity of its vehicle; in the full case the raised error message contains
the words "fully booked". -/
def insertPassenger (db : AppDB) (tripId : Nat) (name phone gender : String) :
    Except EngErr (AppDB × Nat) :=
  if (db.trips.find? (fun t => t.id == tripId)).isNone then
    .error .fkViolation
  else
    let doInsert : AppDB × Nat :=
      ({ db with
          passengers :=
            db.passengers ++ [⟨db.nextPassengerId, tripId, name, phone, gender⟩],
          nextPassengerId := db.nextPassengerId + 1 },
       db.nextPassengerId)
    match capacityOfTrip db tripId with
    | some cap =>
      if cap ≤ passengerCount db tripId then .error .fullyBooked
      else .ok doInsert
    | none => .ok doInsert

/-- Outcome of bookPassenger: either the inserted passenger rowid, or the
non-throwing full-vehicle outcome with success false and reason "full". -/
inductive BookOutcome where
  | booked (passengerId : Nat)
  | full
deriving DecidableEq, Repr

/-- Embedding of DBBooking.bookPassenger: try the insert; a "fully booked"
trigger error is converted to the structured full outcome, every other error
is rethrown. -/
def bookPassenger (db : AppDB) (tripId : Nat) (name phone gender : String) :
    Except EngErr (AppDB × BookOutcome) :=
  match insertPassenger db tripId name.trim phone.trim gender with
  | .ok (db', pid) => .ok (db', .booked pid)
  | .error .fullyBooked => .ok (db, .full)
  | .error e => .error e

/-- Embedding of DBBooking.upsertDriver: look up the driver by phone; update
name and plate in place when found, otherwise insert a fresh row; returns the
driver rowid that the booking will reference. -/
def upsertDriver (db : AppDB) (name phone vehicleNo : String) : AppDB × Nat :=
  match db.drivers.find? (fun d => d.phone == phone) with
  | some d =>
    ({ db with
        drivers := db.drivers.map (fun x =>
          if x.id = d.id then { x with name := name, vehicleNo := vehicleNo } else x) },
     d.id)
  | none =>
    ({ db with
        drivers := db.drivers ++ [⟨db.nextDriverId, name, phone, vehicleNo⟩],
        nextDriverId := db.nextDriverId + 1 },
     db.nextDriverId)

/-- Embedding of DBBooking.createTrip: insert a trip row with the current
timestamp and return its rowid. -/
def createTrip (db : AppDB) (bookingCode : String) (routeId driverId : Nat)
    (vehicleNo : String) (hasAc : Bool) (now : String) : AppDB × Nat :=
  ({ db with
      trips := db.trips ++
        [⟨db.nextTripId, bookingCode, routeId, driverId, vehicleNo, hasAc, now⟩],
      nextTripId := db.nextTripId + 1 },
   db.nextTripId)

/-- The joins of the getTripByBookingCode query: the trip row is returned only
when its route, the two places of the route, the vehicle and the driver all
resolve. -/
def tripJoins (db : AppDB) (t : Trip) : Bool :=
  match db.routes.find? (fun r => r.id == t.routeId) with
  | none => false
  | some r =>
    (db.places.find? (fun p => p.id == r.departureId)).isSome &&
    (db.places.find? (fun p => p.id == r.destinationId)).isSome &&
    (db.vehicles.find? (fun v => v.id == r.vehicleId)).isSome &&
    (db.drivers.find? (fun d => d.id == t.driverId)).isSome

/-- Embedding of DBBooking.getTripByBookingCode: first trip row whose booking
code matches and whose joins succeed. -/
def getTripByBookingCode (db : AppDB) (code : String) : Option Trip :=
  db.trips.find? (fun t => t.bookingCode == code && tripJoins db t)

/-- Embedding of DBBooking.getSeatsRemaining: capacity minus passenger count
through the joins, none when the trip or a join is missing. -/
def getSeatsRemaining (db : AppDB) (tripId : Nat) : Option Int :=
  match db.trips.find? (fun t => t.id == tripId) with
  | none => none
  | some t =>
    match db.routes.find? (fun r => r.id == t.routeId) with
    | none => none
    | some r =>
      match db.vehicles.find? (fun v => v.id == r.vehicleId) with
      | none => none
      | some v => some ((v.capacity : Int) - (passengerCount db tripId : Int))

/-- Arguments of the main booking action. -/
structure BookTripArgs where
  bookingCode : String
  routeId : Nat
  vehicleNo : String
  hasAc : Bool
  driverName : String
  driverPhone : String
  passengerName : String
  passengerPhone : String
  gender : String
deriving DecidableEq, Repr

/-- Result of bookTrip: the success record with fresh remaining-seat count, or
the propagated full outcome with success false and reason "full". -/
inductive BookTripResult where
  | success (tripId passengerId : Nat) (seatsRemaining : Option Int)
  | full
deriving DecidableEq, Repr

/-- Embedding of DBBooking.bookTrip: upsert the driver, get or create the trip
for the booking code, book the passenger (the trigger enforces the seat cap),
then recompute the remaining seats. -/
def bookTrip (db : AppDB) (a : BookTripArgs) (now : String) :
    Except EngErr (AppDB × BookTripResult) :=
  let d1 := upsertDriver db a.driverName a.driverPhone a.vehicleNo
  let t1 : AppDB × Nat :=
    match getTripByBookingCode d1.1 a.bookingCode with
    | none => createTrip d1.1 a.bookingCode a.routeId d1.2 a.vehicleNo a.hasAc now
    | some t => (d1.1, t.id)
  match bookPassenger t1.1 t1.2 a.passengerName a.passengerPhone a.gender with
  | .error e => .error e
  | .ok (db3, .full) => .ok (db3, .full)
  | .ok (db3, .booked pid) =>
    .ok (db3, .success t1.2 pid (getSeatsRemaining db3 t1.2))

/-- First route row matching a (departure, destination, vehicle) triple. -/
def findRouteBy (db : AppDB) (depId destId vehicleId : Nat) : Option Route :=
  db.routes.find? (fun r =>
    r.departureId == depId && r.destinationId == destId && r.vehicleId == vehicleId)

/-- Embedding of DBConfig upsertRoute (the leading-underscore helper of the
source): update the fares of the existing row for the triple, or insert a new
row. -/
def upsertRoute (db : AppDB) (depId destId vehicleId : Nat)
    (priceAc priceNoAc : Option Int) : AppDB :=
  match findRouteBy db depId destId vehicleId with
  | some r =>
    { db with
        routes := db.routes.map (fun x =>
          if x.id = r.id then { x with priceAc := priceAc, priceNoAc := priceNoAc } else x) }
  | none =>
    { db with
        routes := db.routes ++
          [⟨db.nextRouteId, depId, destId, vehicleId, priceAc, priceNoAc⟩],
        nextRouteId := db.nextRouteId + 1 }

/-- Embedding of DBConfig.saveRoute: reject equal endpoints, upsert the forward
direction, then create the reverse direction only when it is absent. -/
def saveRoute (db : AppDB) (departureId destinationId vehicleId : Nat)
    (priceAc priceNoAc : Option Int) : Except EngErr AppDB :=
  if departureId = destinationId then
    .error (.other "Departure and destination cannot be the same.")
  else
    let db1 := upsertRoute db departureId destinationId vehicleId priceAc priceNoAc
    if (findRouteBy db1 destinationId departureId vehicleId).isSome then .ok db1
    else .ok (upsertRoute db1 destinationId departureId vehicleId priceAc priceNoAc)

/-- Modelled from the spec: the binary image format is produced by the
embedded SQL engine (sql.js), which is not part of this repository; the spec
only requires the backup file to be "a byte-exact copy of the full engine
image" whose round trip through export and import reproduces an equivalent
queryable state.  The image serialization is therefore modelled as a concrete
invertible length-prefixed encoding of the whole table record into a sequence
of naturals standing for the opaque byte sequence. -/
def encNat (n : Nat) : List Nat := [n]

/-- Decoder for encNat, consuming a prefix and returning the rest. -/
def decNat : List Nat → Option (Nat × List Nat)
  | n :: rest => some (n, rest)
  | [] => none

/-- Sign-tagged encoding of an integer. -/
def encInt : Int → List Nat
  | .ofNat n => [0, n]
  | .negSucc n => [1, n]

/-- Decoder for encInt. -/
def decInt : List Nat → Option (Int × List Nat)
  | 0 :: n :: rest => some (.ofNat n, rest)
  | 1 :: n :: rest => some (.negSucc n, rest)
  | _ => none

/-- Encoding of a boolean as one tag. -/
def encBool (b : Bool) : List Nat := [if b then 1 else 0]

/-- Decoder for encBool. -/
def decBool : List Nat → Option (Bool × List Nat)
  | 0 :: rest => some (false, rest)
  | 1 :: rest => some (true, rest)
  | _ => none

/-- Length-prefixed encoding of a string as its character codes. -/
def encString (s : String) : List Nat :=
  s.toList.length :: s.toList.map Char.toNat

/-- Read exactly k character codes. -/
def decChars : Nat → List Nat → Option (List Char × List Nat)
  | 0, rest => some ([], rest)
  | _ + 1, [] => none
  | k + 1, c :: rest =>
    match decChars k rest with
    | some (cs, r) => some (Char.ofNat c :: cs, r)
    | none => none

/-- Decoder for encString. -/
def decString (xs : List Nat) : Option (String × List Nat) :=
  match xs with
  | [] => none
  | n :: rest =>
    match decChars n rest with
    | some (cs, r) => some (String.mk cs, r)
    | none => none

/-- Tag-prefixed encoding of an optional value. -/
def encOpt {τ : Type} (enc : τ → List Nat) : Option τ → List Nat
  | none => [0]
  | some x => 1 :: enc x

/-- Decoder for encOpt. -/
def decOpt {τ : Type} (dec : List Nat → Option (τ × List Nat)) :
    List Nat → Option (Option τ × List Nat)
  | 0 :: rest => some (none, rest)
  | 1 :: rest =>
    match dec rest with
    | some (x, r) => some (some x, r)
    | none => none
  | _ => none

/-- Length-prefixed encoding of a list of values. -/
def encList {τ : Type} (enc : τ → List Nat) (l : List τ) : List Nat :=
  l.length :: (l.map enc).flatten

/-- Read exactly k encoded values. -/
def decListAux {τ : Type} (dec : List Nat → Option (τ × List Nat)) :
    Nat → List Nat → Option (List τ × List Nat)
  | 0, rest => some ([], rest)
  | k + 1, xs =>
    match dec xs with
    | some (x, r) =>
      match decListAux dec k r with
      | some (l, r') => some (x :: l, r')
      | none => none
    | none => none

/-- Decoder for encList. -/
def decList {τ : Type} (dec : List Nat → Option (τ × List Nat))
    (xs : List Nat) : Option (List τ × List Nat) :=
  match xs with
  | [] => none
  | n :: rest => decListAux dec n rest

/-- Field-wise encoding of a place row. -/
def encPlace (p : Place) : List Nat :=
  encNat p.id ++ encString p.name ++ encOpt encNat p.stateId

/-- Decoder for encPlace. -/
def decPlace (xs : List Nat) : Option (Place × List Nat) := do
  let (i, xs) ← decNat xs
  let (nm, xs) ← decString xs
  let (st, xs) ← decOpt decNat xs
  some (⟨i, nm, st⟩, xs)

/-- Field-wise encoding of a vehicle row. -/
def encVehicle (v : Vehicle) : List Nat :=
  encNat v.id ++ encString v.vtype ++ encNat v.capacity

/-- Decoder for encVehicle. -/
def decVehicle (xs : List Nat) : Option (Vehicle × List Nat) := do
  let (i, xs) ← decNat xs
  let (ty, xs) ← decString xs
  let (c, xs) ← decNat xs
  some (⟨i, ty, c⟩, xs)

/-- Field-wise encoding of a route row. -/
def encRoute (r : Route) : List Nat :=
  encNat r.id ++ encNat r.departureId ++ encNat r.destinationId ++
    encNat r.vehicleId ++ encOpt encInt r.priceAc ++ encOpt encInt r.priceNoAc

/-- Decoder for encRoute. -/
def decRoute (xs : List Nat) : Option (Route × List Nat) := do
  let (i, xs) ← decNat xs
  let (dep, xs) ← decNat xs
  let (dst, xs) ← decNat xs
  let (veh, xs) ← decNat xs
  let (pa, xs) ← decOpt decInt xs
  let (pn, xs) ← decOpt decInt xs
  some (⟨i, dep, dst, veh, pa, pn⟩, xs)

/-- Field-wise encoding of a driver row. -/
def encDriver (d : Driver) : List Nat :=
  encNat d.id ++ encString d.name ++ encString d.phone ++ encString d.vehicleNo

/-- Decoder for encDriver. -/
def decDriver (xs : List Nat) : Option (Driver × List Nat) := do
  let (i, xs) ← decNat xs
  let (nm, xs) ← decString xs
  let (ph, xs) ← decString xs
  let (vn, xs) ← decString xs
  some (⟨i, nm, ph, vn⟩, xs)

/-- Field-wise encoding of a trip row. -/
def encTrip (t : Trip) : List Nat :=
  encNat t.id ++ encString t.bookingCode ++ encNat t.routeId ++
    encNat t.driverId ++ encString t.vehicleNo ++ encBool t.hasAc ++
    encString t.bookedAt

/-- Decoder for encTrip. -/
def decTrip (xs : List Nat) : Option (Trip × List Nat) := do
  let (i, xs) ← decNat xs
  let (bc, xs) ← decString xs
  let (ri, xs) ← decNat xs
  let (di, xs) ← decNat xs
  let (vn, xs) ← decString xs
  let (ac, xs) ← decBool xs
  let (ba, xs) ← decString xs
  some (⟨i, bc, ri, di, vn, ac, ba⟩, xs)

/-- Field-wise encoding of a passenger row. -/
def encPassenger (p : Passenger) : List Nat :=
  encNat p.id ++ encNat p.tripId ++ encString p.name ++ encString p.phone ++
    encString p.gender

/-- Decoder for encPassenger. -/
def decPassenger (xs : List Nat) : Option (Passenger × List Nat) := do
  let (i, xs) ← decNat xs
  let (ti, xs) ← decNat xs
  let (nm, xs) ← decString xs
  let (ph, xs) ← decString xs
  let (g, xs) ← decString xs
  some (⟨i, ti, nm, ph, g⟩, xs)

/-- Encoding of the whole image. -/
def encodeDB (db : AppDB) : List Nat :=
  encList encPlace db.places ++ encList encVehicle db.vehicles ++
    encList encRoute db.routes ++ encList encDriver db.drivers ++
    encList encTrip db.trips ++ encList encPassenger db.passengers ++
    encNat db.nextRouteId ++ encNat db.nextDriverId ++
    encNat db.nextTripId ++ encNat db.nextPassengerId

/-- Decoder for encodeDB; ignores any trailing suffix, as the engine does. -/
def decodeDB (xs : List Nat) : Option AppDB := do
  let (pl, xs) ← decList decPlace xs
  let (ve, xs) ← decList decVehicle xs
  let (ro, xs) ← decList decRoute xs
  let (dr, xs) ← decList decDriver xs
  let (tr, xs) ← decList decTrip xs
  let (pa, xs) ← decList decPassenger xs
  let (nr, xs) ← decNat xs
  let (nd, xs) ← decNat xs
  let (nt, xs) ← decNat xs
  let (np, _) ← decNat xs
  some ⟨pl, ve, ro, dr, tr, pa, nr, nd, nt, np⟩

/-- Engine-level state of db-core.js together with its asynchronous world:
the optional live image (the module variable holding the database), the flag
recording whether the SQL constructor has been loaded, the dirty flag, the
statement-level transaction flag of the underlying engine, the per-connection
foreign-key pragma, and the content of the single backing-store key. -/
structure World where
  db : Option AppDB
  sqlLoaded : Bool
  dirty : Bool
  inTx : Bool
  fkEnabled : Bool
  idb : Option (List Nat)
deriving DecidableEq, Repr

/-- A mutating statement of the embedded engine: each statement applies
atomically to the live image or fails without effect.  Closures passed to the
transaction manager are modelled by their sequence of such statements. -/
def Stmt : Type := AppDB → Except EngErr AppDB

/-- Embedding of DBCore.persist: no-op without a live image or when clean,
otherwise export the full image to the backing store and clear the dirty flag;
a backing-store failure leaves the dirty flag set and the store unwritten.
The success of the asynchronous put is an input of the model. -/
def persistNow (w : World) (putOk : Bool) : World × Except EngErr Unit :=
  match w.db with
  | none => (w, .ok ())
  | some img =>
    if w.dirty then
      if putOk then
        ({ w with idb := some (encodeDB img), dirty := false }, .ok ())
      else (w, .error .backingStore)
    else (w, .ok ())

/-- Embedding of DBCore.query: fails fast before init, otherwise applies the
read-only query to the live image with no state change. -/
def queryW {ρ : Type} (w : World) (q : AppDB → ρ) : World × Except EngErr ρ :=
  match w.db with
  | none => (w, .error .notInitialised)
  | some img => (w, .ok (q img))

/-- Embedding of DBCore.run: fails fast before init; applies one mutating
statement, marks the image dirty, and awaits persistence before reporting
success, propagating a backing-store failure to the caller. -/
def runW (w : World) (stmt : Stmt) (putOk : Bool) : World × Except EngErr Unit :=
  match w.db with
  | none => (w, .error .notInitialised)
  | some img =>
    match stmt img with
    | .error e => (w, .error e)
    | .ok img' =>
      let w1 : World := { w with db := some img', dirty := true }
      persistNow w1 putOk

/-- Sequential execution of the mutating statements of a transaction closure
against a working image. -/
def runClosure : List Stmt → AppDB → Except EngErr AppDB
  | [], img => .ok img
  | stmt :: rest, img =>
    match stmt img with
    | .error e => .error e
    | .ok img' => runClosure rest img'

/-- Embedding of DBCore.transaction.  Modelled from the spec where the engine
is concerned: the BEGIN statement of the underlying engine raises when a
transaction is already open (the TransactionAlreadyOpen failure of section
4.3), and ROLLBACK restores the image that was live when BEGIN ran.  The
manager itself follows src: BEGIN, run the closure, COMMIT and mark dirty and
persist on success; ROLLBACK and re-raise the closure error unchanged on
failure. -/
def transactionW (w : World) (stmts : List Stmt) (putOk : Bool) :
    World × Except EngErr Unit :=
  match w.db with
  | none => (w, .error .notInitialised)
  | some img =>
    if w.inTx then (w, .error .txAlreadyOpen)
    else
      match runClosure stmts img with
      | .error e => ({ w with db := some img, inTx := false }, .error e)
      | .ok img' =>
        let w1 : World := { w with db := some img', dirty := true, inTx := false }
        persistNow w1 putOk

/-- Embedding of DBCore.exportDB: fails fast before init, otherwise serializes
the full current image (the download chrome is outside the model) with no
state change. -/
def exportDBW (w : World) : World × Except EngErr (List Nat) :=
  match w.db with
  | none => (w, .error .notInitialised)
  | some img => (w, .ok (encodeDB img))

/-- Embedding of DBCore.restoreDB.  The source performs no init check here:
it reads the picked file, closes the live image when one exists, constructs a
new image from the bytes through the SQL constructor (which is null before
init, so the call fails with a null-engine error), re-enables the foreign-key
pragma on the fresh connection, and persists the new image to the backing
store. -/
def restoreDBW (w : World) (bytes : List Nat) (putOk : Bool) :
    World × Except EngErr Unit :=
  let w0 : World :=
    match w.db with
    | some _ => { w with db := none }
    | none => w
  if w.sqlLoaded then
    match decodeDB bytes with
    | none => (w0, .error (.other "bad image"))
    | some img =>
      let w1 : World := { w0 with db := some img, fkEnabled := true }
      if putOk then ({ w1 with idb := some (encodeDB img) }, .ok ())
      else (w1, .error .backingStore)
  else (w0, .error .nullEngine)

/-- Observable effects of initialisation against the outside world. -/
inductive InitEffect where
  | idbRead
  | seedFetch
  | idbWrite
deriving DecidableEq, Repr

/-- Embedding of DBCore.init: if a live image already exists, return it at
once; otherwise load the SQL constructor, read the backing store, and either
open the saved image or fetch the bundled seed, open it and persist it
immediately; always re-enable foreign keys on the fresh connection.  Inputs
model the outcomes of the asynchronous collaborators (seed fetch and
backing-store put); the effect list records which external operations ran. -/
def initW (w : World) (seed : Option (List Nat)) (putOk : Bool) :
    World × Except EngErr AppDB × List InitEffect :=
  match w.db with
  | some img => (w, .ok img, [])
  | none =>
    let w1 : World := { w with sqlLoaded := true }
    match w.idb with
    | some saved =>
      match decodeDB saved with
      | some img =>
        ({ w1 with db := some img, fkEnabled := true }, .ok img, [.idbRead])
      | none => (w1, .error (.other "bad image"), [.idbRead])
    | none =>
      match seed with
      | none =>
        (w1, .error (.other "Failed to fetch seed DB"), [.idbRead, .seedFetch])
      | some bytes =>
        match decodeDB bytes with
        | none => (w1, .error (.other "bad image"), [.idbRead, .seedFetch])
        | some img =>
          if putOk then
            ({ w1 with db := some img, fkEnabled := true, idb := some (encodeDB img) },
             .ok img, [.idbRead, .seedFetch, .idbWrite])
          else
            ({ w1 with db := some img },
             .error .backingStore, [.idbRead, .seedFetch, .idbWrite])

/-- Character for one base-36 digit, lowercase as produced by the JS
number-to-string conversion. -/
def digit36Char (d : Nat) : Char :=
  if d < 10 then Char.ofNat (48 + d) else Char.ofNat (87 + d)

/-- Modelled from the JS semantics of the source line
Math.random().toString(36): the random double lies in the interval from 0
inclusive to 1 exclusive, and its base-36 rendering is "0" when it is zero and
otherwise "0." followed by its finite fractional base-36 digit sequence with
no trailing zeros.  The random source is represented by that digit list. -/
def jsRandomString36 (digits : List Nat) : List Char :=
  match digits with
  | [] => ['0']
  | _ => '0' :: '.' :: digits.map digit36Char

/-- JS padStart(2, "0") on a digit string. -/
def padTwo (cs : List Char) : List Char :=
  if cs.length < 2 then List.replicate (2 - cs.length) '0' ++ cs else cs

/-- Embedding of DBCore.generateBookingCode: the local date rendered as
year, zero-padded month and day, and the token obtained by taking characters
2 to 6 of the base-36 rendering of the random value, uppercased. -/
def generateBookingCode (year month day : Nat) (randDigits : List Nat) : String :=
  let y := Nat.toDigits 10 year
  let m := padTwo (Nat.toDigits 10 month)
  let d := padTwo (Nat.toDigits 10 day)
  let tok := (((jsRandomString36 randDigits).drop 2).take 4).map Char.toUpper
  String.mk ("TRP-".toList ++ y ++ m ++ d ++ '-' :: tok)

/-- The trip satisfies the capacity rule: its passenger count is at most the
capacity of the vehicle of its route, whenever that capacity resolves. -/
def tripWithinCap (db : AppDB) (t : Trip) : Bool :=
  match capacityOfTrip db t.id with
  | some cap => passengerCount db t.id ≤ cap
  | none => true

/-- The capacity invariant of the spec: every trip of the image is within the
capacity of the vehicle of its route. -/
def CapInv (db : AppDB) : Prop :=
  ∀ t ∈ db.trips, tripWithinCap db t = true

/-- The capacity invariant is decidable, so concrete images can be checked. -/
instance (db : AppDB) : Decidable (CapInv db) :=
  inferInstanceAs (Decidable (∀ t ∈ db.trips, tripWithinCap db t = true))

/-- Referential well-formedness of the image, as guaranteed by the schema
(foreign keys are ON) and by rowid freshness: every passenger references an
existing trip, every trip references an existing driver, and every stored
rowid is below the corresponding next rowid. -/
structure WF (db : AppDB) : Prop where
  passTrip : ∀ p ∈ db.passengers, db.trips.any (fun t => t.id == p.tripId) = true
  tripFresh : ∀ t ∈ db.trips, t.id < db.nextTripId
  tripDriver : ∀ t ∈ db.trips, db.drivers.any (fun d => d.id == t.driverId) = true
  driverFresh : ∀ d ∈ db.drivers, d.id < db.nextDriverId

/-- A small well-formed image: two places, one two-seat vehicle, one route in
each direction, no bookings yet. -/
def dbSample : AppDB :=
  { places := [⟨1, "Aba", none⟩, ⟨2, "Benin", none⟩]
    vehicles := [⟨1, "Bus", 2⟩]
    routes := [⟨1, 1, 2, 1, some 100, some 80⟩, ⟨2, 2, 1, 1, some 100, some 80⟩]
    drivers := []
    trips := []
    passengers := []
    nextRouteId := 3
    nextDriverId := 1
    nextTripId := 1
    nextPassengerId := 1 }

/-- A small well-formed image in which the single trip is already at the
capacity of its vehicle. -/
def dbFull : AppDB :=
  { places := [⟨1, "Aba", none⟩, ⟨2, "Benin", none⟩]
    vehicles := [⟨1, "Bus", 2⟩]
    routes := [⟨1, 1, 2, 1, some 100, some 80⟩]
    drivers := [⟨1, "Dan", "070", "XY-1"⟩]
    trips := [⟨1, "TRP-20250101-AAAA", 1, 1, "XY-1", true, "2025-01-01"⟩]
    passengers := [⟨1, 1, "Ada", "081", "F"⟩, ⟨2, 1, "Bola", "082", "M"⟩]
    nextRouteId := 2
    nextDriverId := 2
    nextTripId := 2
    nextPassengerId := 3 }

/-- An image used by the route-symmetry counterexample: the reverse direction
of the route being saved already exists with older fares. -/
def dbRev : AppDB :=
  { places := [⟨1, "Aba", none⟩, ⟨2, "Benin", none⟩]
    vehicles := [⟨1, "Bus", 4⟩]
    routes := [⟨7, 2, 1, 1, some 100, some 80⟩]
    drivers := []
    trips := []
    passengers := []
    nextRouteId := 8
    nextDriverId := 1
    nextTripId := 1
    nextPassengerId := 1 }

/-- The image dbRev after saving the forward route: the forward direction is
inserted with the new fares, the already-existing reverse direction is left
untouched with its old fares. -/
def dbRevAfter : AppDB :=
  { dbRev with
      routes := [⟨7, 2, 1, 1, some 100, some 80⟩, ⟨8, 1, 2, 1, some 200, some 150⟩],
      nextRouteId := 9 }

/-- Booking arguments targeting the full sample trip. -/
def argsA : BookTripArgs :=
  ⟨"TRP-20250101-AAAA", 1, "XY-1", true, "Dan", "070", "Chidi", "083", "M"⟩

/-- First booking against a fresh code on the sample image. -/
def argsB1 : BookTripArgs :=
  ⟨"TRP-20250102-BBBB", 1, "XY-1", true, "Dan", "070", "Ada", "081", "F"⟩

/-- Second booking against the same code with a different passenger. -/
def argsB2 : BookTripArgs :=
  ⟨"TRP-20250102-BBBB", 1, "XY-1", true, "Dan", "070", "Bola", "082", "M"⟩

/-- A fully initialised world holding the sample image. -/
def worldReady : World :=
  { db := some dbSample
    sqlLoaded := true
    dirty := false
    inTx := false
    fkEnabled := true
    idb := some (encodeDB dbSample) }

/-- The world before initialisation: no image, no SQL constructor, nothing
persisted. -/
def worldUninit : World :=
  { db := none
    sqlLoaded := false
    dirty := false
    inTx := false
    fkEnabled := false
    idb := none }

/-- The ready world while a transaction is open on the underlying engine. -/
def worldInTx : World :=
  { db := some dbSample
    sqlLoaded := true
    dirty := false
    inTx := true
    fkEnabled := true
    idb := some (encodeDB dbSample) }

/-- A mutating statement that books a concrete passenger, used by concrete
instantiations of the engine theorems. -/
def stmtBookSample : Stmt := fun db =>
  (insertPassenger db 1 "Ada" "081" "F").map Prod.fst

/-- A statement that always fails, standing for a closure that raises after a
prefix of its statements. -/
def stmtFail : Stmt := fun _ => .error (.other "boom")

/-- A statement that inserts a trip row, used inside transaction examples. -/
def stmtAddTrip : Stmt := fun db =>
  .ok { db with
          trips := db.trips ++ [⟨db.nextTripId, "TRP-X", 1, 1, "XY-1", true, "t"⟩],
          nextTripId := db.nextTripId + 1 }

/-- Decidable equality of results of fallible engine operations. -/
instance {ε α : Type} [DecidableEq ε] [DecidableEq α] :
    DecidableEq (Except ε α) := fun x y =>
  match x, y with
  | .ok a, .ok b =>
    if h : a = b then isTrue (by rw [h])
    else isFalse (by intro hc; cases hc; exact h rfl)
  | .error a, .error b =>
    if h : a = b then isTrue (by rw [h])
    else isFalse (by intro hc; cases hc; exact h rfl)
  | .ok _, .error _ => isFalse (by intro hc; cases hc)
  | .error _, .ok _ => isFalse (by intro hc; cases hc)

/-- The sample image after the trip-inserting statement ran. -/
def stmtAddTripped : AppDB :=
  { dbSample with
      trips := dbSample.trips ++ [⟨dbSample.nextTripId, "TRP-X", 1, 1, "XY-1", true, "t"⟩],
      nextTripId := dbSample.nextTripId + 1 }

/-- Pointwise equal predicates find the same first element. -/
theorem find?_congr {α : Type} {p q : α → Bool} :
    ∀ {l : List α}, (∀ x ∈ l, p x = q x) → l.find? p = l.find? q := by
  intro l
  induction l with
  | nil => intro _; rfl
  | cons a as ih =>
    intro h
    have ha := h a (by simp)
    simp only [List.find?_cons, ha]
    cases q a
    · exact ih (fun x hx => h x (by simp [hx]))
    · rfl

/-- Round trip for encNat. -/
theorem decNat_enc (n : Nat) (rest : List Nat) :
    decNat (encNat n ++ rest) = some (n, rest) := rfl

/-- Round trip for encInt. -/
theorem decInt_enc (i : Int) (rest : List Nat) :
    decInt (encInt i ++ rest) = some (i, rest) := by
  cases i <;> rfl

/-- Round trip for encBool. -/
theorem decBool_enc (b : Bool) (rest : List Nat) :
    decBool (encBool b ++ rest) = some (b, rest) := by
  cases b <;> rfl

/-- Round trip for the character-code block of a string. -/
theorem decChars_enc (cs : List Char) (rest : List Nat) :
    decChars cs.length (cs.map Char.toNat ++ rest) = some (cs, rest) := by
  induction cs with
  | nil => rfl
  | cons c cs ih => simp [decChars, ih, Char.ofNat_toNat]

/-- Round trip for encString. -/
theorem decString_enc (s : String) (rest : List Nat) :
    decString (encString s ++ rest) = some (s, rest) := by
  show decString (s.toList.length :: (s.toList.map Char.toNat ++ rest)) = _
  simp only [decString, decChars_enc]
  cases s
  rfl

/-- Round trip for encOpt at element type Nat. -/
theorem decOptNat_enc (o : Option Nat) (rest : List Nat) :
    decOpt decNat (encOpt encNat o ++ rest) = some (o, rest) := by
  cases o <;> rfl

/-- Round trip for encOpt at element type Int. -/
theorem decOptInt_enc (o : Option Int) (rest : List Nat) :
    decOpt decInt (encOpt encInt o ++ rest) = some (o, rest) := by
  cases o with
  | none => rfl
  | some i => simp [encOpt, decOpt, decInt_enc]

/-- Round trip for the counted block of an encoded list. -/
theorem decListAux_enc {τ : Type} (enc : τ → List Nat)
    (dec : List Nat → Option (τ × List Nat))
    (h : ∀ x rest, dec (enc x ++ rest) = some (x, rest)) :
    ∀ (l : List τ) (rest : List Nat),
      decListAux dec l.length ((l.map enc).flatten ++ rest) = some (l, rest) := by
  intro l
  induction l with
  | nil => intro rest; rfl
  | cons x xs ih =>
    intro rest
    simp only [List.map_cons, List.flatten_cons, List.length_cons,
      List.append_assoc, decListAux, h, ih]

/-- Round trip for encList, given a round trip for the elements. -/
theorem decList_enc {τ : Type} (enc : τ → List Nat)
    (dec : List Nat → Option (τ × List Nat))
    (h : ∀ x rest, dec (enc x ++ rest) = some (x, rest))
    (l : List τ) (rest : List Nat) :
    decList dec (encList enc l ++ rest) = some (l, rest) := by
  show decList dec (l.length :: ((l.map enc).flatten ++ rest)) = _
  simp only [decList, decListAux_enc enc dec h]

/-- Round trip for a place row. -/
theorem decPlace_enc (p : Place) (rest : List Nat) :
    decPlace (encPlace p ++ rest) = some (p, rest) := by
  simp only [decPlace, encPlace, List.append_assoc, decNat_enc, decString_enc,
    decOptNat_enc, Option.bind_eq_bind, Option.some_bind]

/-- Round trip for a vehicle row. -/
theorem decVehicle_enc (v : Vehicle) (rest : List Nat) :
    decVehicle (encVehicle v ++ rest) = some (v, rest) := by
  simp only [decVehicle, encVehicle, List.append_assoc, decNat_enc,
    decString_enc, Option.bind_eq_bind, Option.some_bind]

/-- Round trip for a route row. -/
theorem decRoute_enc (r : Route) (rest : List Nat) :
    decRoute (encRoute r ++ rest) = some (r, rest) := by
  simp only [decRoute, encRoute, List.append_assoc, decNat_enc, decOptInt_enc,
    Option.bind_eq_bind, Option.some_bind]

/-- Round trip for a driver row. -/
theorem decDriver_enc (d : Driver) (rest : List Nat) :
    decDriver (encDriver d ++ rest) = some (d, rest) := by
  simp only [decDriver, encDriver, List.append_assoc, decNat_enc,
    decString_enc, Option.bind_eq_bind, Option.some_bind]

/-- Round trip for a trip row. -/
theorem decTrip_enc (t : Trip) (rest : List Nat) :
    decTrip (encTrip t ++ rest) = some (t, rest) := by
  simp only [decTrip, encTrip, List.append_assoc, decNat_enc, decString_enc,
    decBool_enc, Option.bind_eq_bind, Option.some_bind]

/-- Round trip for a passenger row. -/
theorem decPassenger_enc (p : Passenger) (rest : List Nat) :
    decPassenger (encPassenger p ++ rest) = some (p, rest) := by
  simp only [decPassenger, encPassenger, List.append_assoc, decNat_enc,
    decString_enc, Option.bind_eq_bind, Option.some_bind]

/-- Round trip for the whole image: decoding an exported image yields the
image that was exported. -/
theorem decodeDB_encodeDB (db : AppDB) : decodeDB (encodeDB db) = some db := by
  have hp := decList_enc encPlace decPlace decPlace_enc
  have hv := decList_enc encVehicle decVehicle decVehicle_enc
  have hr := decList_enc encRoute decRoute decRoute_enc
  have hd := decList_enc encDriver decDriver decDriver_enc
  have ht := decList_enc encTrip decTrip decTrip_enc
  have hpa := decList_enc encPassenger decPassenger decPassenger_enc
  have : encodeDB db =
      encList encPlace db.places ++ (encList encVehicle db.vehicles ++
        (encList encRoute db.routes ++ (encList encDriver db.drivers ++
          (encList encTrip db.trips ++ (encList encPassenger db.passengers ++
            (encNat db.nextRouteId ++ (encNat db.nextDriverId ++
              (encNat db.nextTripId ++ (encNat db.nextPassengerId ++ []))))))))) := by
    simp [encodeDB, List.append_assoc]
  rw [decodeDB, this]
  simp only [hp, hv, hr, hd, ht, hpa, decNat_enc, Option.bind_eq_bind,
    Option.some_bind]

/-- Replacing the live image and transaction flag of a world by their current
values is the identity. -/
theorem world_eta (w : World) (img : AppDB) (hdb : w.db = some img)
    (hntx : w.inTx = false) : { w with db := some img, inTx := false } = w := by
  cases w
  simp_all

/-- C2: if the closure of a transaction raises after any prefix of its
mutating statements, the manager rolls back and re-raises the error
unchanged; the image equals its state before the transaction began, the
backing store is untouched, and every subsequent query reads the
pre-transaction rows. -/
theorem c2_transaction_rollback (w : World) (img : AppDB)
    (hdb : w.db = some img) (hntx : w.inTx = false)
    (stmts : List Stmt) (e : EngErr) (putOk : Bool)
    (hfail : runClosure stmts img = .error e) :
    transactionW w stmts putOk = (w, .error e) ∧
    ∀ (ρ : Type) (q : AppDB → ρ),
      queryW (transactionW w stmts putOk).1 q = (w, .ok (q img)) := by
  have hw : transactionW w stmts putOk = (w, .error e) := by
    simp only [transactionW, hdb, hntx, hfail, Bool.false_eq_true, if_false]
    rw [world_eta w img hdb hntx]
  refine ⟨hw, ?_⟩
  intro ρ q
  rw [hw]
  simp [queryW, hdb]

/-- Closed instance of the rollback theorem: the sample world, a closure that
inserts a trip row and then raises. -/
theorem c2_transaction_rollback_witness :
    transactionW worldReady [stmtAddTrip, stmtFail] true =
      (worldReady, .error (.other "boom")) :=
  (c2_transaction_rollback worldReady dbSample rfl rfl [stmtAddTrip, stmtFail]
    (.other "boom") true (by decide)).1

/-- C3: when the in-memory mutation commits but the backing-store export
fails, the error propagates to the caller while the mutation stays applied
and the dirty flag stays set; a later persist retries the export alone,
without re-applying the mutation.  Both the single-statement path and the
transaction path are covered. -/
theorem c3_commit_not_durable (w : World) (img img' : AppDB)
    (hdb : w.db = some img) (hntx : w.inTx = false)
    (stmt : Stmt) (hst : stmt img = .ok img')
    (stmts : List Stmt) (hcl : runClosure stmts img = .ok img') :
    runW w stmt false =
      ({ w with db := some img', dirty := true }, .error .backingStore) ∧
    transactionW w stmts false =
      ({ w with db := some img', dirty := true, inTx := false },
        .error .backingStore) ∧
    persistNow { w with db := some img', dirty := true } true =
      ({ w with db := some img', dirty := false, idb := some (encodeDB img') },
        .ok ()) := by
  refine ⟨?_, ?_, ?_⟩
  · simp [runW, hdb, hst, persistNow]
  · simp [transactionW, hdb, hntx, hcl, persistNow]
  · simp [persistNow]

/-- Closed instance of the commit-not-durable theorem at the sample world and
the trip-inserting statement. -/
theorem c3_commit_not_durable_witness :
    runW worldReady stmtAddTrip false =
      ({ worldReady with db := some (stmtAddTripped), dirty := true },
        .error .backingStore) ∧
    persistNow { worldReady with db := some (stmtAddTripped), dirty := true } true =
      ({ worldReady with db := some (stmtAddTripped), dirty := false, idb := some (encodeDB (stmtAddTripped)) }, .ok ()) := by
  have h := c3_commit_not_durable worldReady dbSample stmtAddTripped rfl rfl
    stmtAddTrip (by decide) [stmtAddTrip] (by decide)
  exact ⟨h.1, h.2.2⟩

/-- C6: invoking the transaction manager while a transaction is already open
fails with the transaction-already-open error of the engine and starts
nothing: the world is returned unchanged. -/
theorem c6_nested_transaction (w : World) (img : AppDB)
    (hdb : w.db = some img) (htx : w.inTx = true)
    (stmts : List Stmt) (putOk : Bool) :
    transactionW w stmts putOk = (w, .error .txAlreadyOpen) := by
  simp [transactionW, hdb, htx]

/-- Closed instance of the nested-transaction theorem. -/
theorem c6_nested_transaction_witness :
    transactionW worldInTx [stmtAddTrip] true =
      (worldInTx, .error .txAlreadyOpen) :=
  c6_nested_transaction worldInTx dbSample rfl rfl [stmtAddTrip] true

/-- C7 counterexample: before initialisation, restoreDB does not fail with the
engine-not-initialised error — the source has no init guard there, and the
call dies on the unloaded SQL constructor instead. -/
theorem c7_restore_guard_counterexample :
    (restoreDBW worldUninit [] true).2 = .error .nullEngine ∧
    (restoreDBW worldUninit [] true).2 ≠ .error .notInitialised := by
  decide

/-- C7 amended: before initialisation, query, run, transaction and exportDB
all fail fast with the engine-not-initialised error and change no state;
restoreDB, which lacks the guard in the source, fails with the null-engine
error instead, also changing no state. -/
theorem c7_uninitialised_fail_fast (w : World) (hdb : w.db = none)
    (hsql : w.sqlLoaded = false) {ρ : Type} (q : AppDB → ρ) (stmt : Stmt)
    (stmts : List Stmt) (putOk : Bool) (bytes : List Nat) :
    queryW w q = (w, .error .notInitialised) ∧
    runW w stmt putOk = (w, .error .notInitialised) ∧
    transactionW w stmts putOk = (w, .error .notInitialised) ∧
    exportDBW w = (w, .error .notInitialised) ∧
    restoreDBW w bytes putOk = (w, .error .nullEngine) := by
  refine ⟨?_, ?_, ?_, ?_, ?_⟩ <;>
    simp [queryW, runW, transactionW, exportDBW, restoreDBW, hdb, hsql]

/-- Closed instance of the fail-fast theorem at the uninitialised world. -/
theorem c7_uninitialised_fail_fast_witness :
    queryW worldUninit (fun db => db.trips) =
      (worldUninit, .error .notInitialised) ∧
    restoreDBW worldUninit [] true = (worldUninit, .error .nullEngine) := by
  have h := c7_uninitialised_fail_fast worldUninit rfl rfl
    (fun db => db.trips) stmtAddTrip [stmtAddTrip] true []
  exact ⟨h.1, h.2.2.2.2⟩

/-- C8: importing the bytes produced by exporting the current state succeeds,
re-enables foreign-key enforcement on the fresh connection, and yields an
image equal to the one exported, so every query returns the same rows as
immediately before the export. -/
theorem c8_snapshot_roundtrip (w : World) (img : AppDB)
    (hdb : w.db = some img) (hsql : w.sqlLoaded = true) (bytes : List Nat)
    (hexp : exportDBW w = (w, .ok bytes)) :
    (restoreDBW w bytes true).2 = .ok () ∧
    (restoreDBW w bytes true).1.db = some img ∧
    (restoreDBW w bytes true).1.fkEnabled = true ∧
    ∀ (ρ : Type) (q : AppDB → ρ),
      queryW (restoreDBW w bytes true).1 q =
        ((restoreDBW w bytes true).1, .ok (q img)) := by
  have hb : bytes = encodeDB img := by
    have : exportDBW w = (w, .ok (encodeDB img)) := by simp [exportDBW, hdb]
    rw [this] at hexp
    exact (Except.ok.injEq _ _ ▸ (Prod.mk.injEq _ _ _ _ ▸ hexp).2).symm
  subst hb
  have hres : restoreDBW w (encodeDB img) true =
      ({ w with db := some img, fkEnabled := true, idb := some (encodeDB img) }, .ok ()) := by
    simp [restoreDBW, hdb, hsql, decodeDB_encodeDB]
  rw [hres]
  refine ⟨rfl, rfl, rfl, ?_⟩
  intro ρ q
  simp [queryW]

/-- Closed instance of the snapshot round trip at the sample world. -/
theorem c8_snapshot_roundtrip_witness :
    (restoreDBW worldReady (encodeDB dbSample) true).1.db = some dbSample ∧
    (restoreDBW worldReady (encodeDB dbSample) true).1.fkEnabled = true :=
  let h := c8_snapshot_roundtrip worldReady dbSample rfl rfl
    (encodeDB dbSample) rfl
  ⟨h.2.1, h.2.2.1⟩

/-- C10: once initialisation has completed, calling init again returns the
already-loaded image, performs no backing-store read, no seed fetch and no
write, and leaves the whole world unchanged. -/
theorem c10_init_idempotent (w : World) (img : AppDB) (hdb : w.db = some img)
    (seed : Option (List Nat)) (putOk : Bool) :
    initW w seed putOk = (w, .ok img, []) := by
  simp [initW, hdb]

/-- Closed instance of init idempotence at the ready world. -/
theorem c10_init_idempotent_witness :
    initW worldReady none true = (worldReady, .ok dbSample, []) :=
  c10_init_idempotent worldReady dbSample rfl none true

/-- Mapping a function that does not change the predicate commutes with the
first-match search. -/
theorem find?_map_pred {α : Type} (l : List α) (f : α → α) (p : α → Bool)
    (hf : ∀ x ∈ l, p (f x) = p x) :
    (l.map f).find? p = (l.find? p).map f := by
  rw [List.find?_map]
  exact congrArg (Option.map f) (find?_congr hf)

/-- C9 counterexample: for the random double one half, whose base-36
rendering is "0.i", the generated code carries a one-character token, so the
token is not exactly 4 characters as the claim states. -/
theorem c9_token_length_counterexample :
    generateBookingCode 2025 4 20 [18] = "TRP-20250420-I" ∧
    ¬ ∃ tok : List Char, tok.length = 4 ∧
        generateBookingCode 2025 4 20 [18] =
          String.mk ("TRP-20250420-".toList ++ tok) := by
  have h0 : generateBookingCode 2025 4 20 [18] = "TRP-20250420-I" := by decide
  refine ⟨h0, ?_⟩
  rintro ⟨tok, hlen, heq⟩
  rw [h0] at heq
  have h : "TRP-20250420-I".toList = "TRP-20250420-".toList ++ tok :=
    congrArg String.toList heq
  have hL : ("TRP-20250420-I".toList).length = 14 := by decide
  rw [h, List.length_append, hlen] at hL
  have hR : ("TRP-20250420-".toList).length = 13 := by decide
  rw [hR] at hL
  omega

/-- C9 amended: the generated code is TRP, the year, the zero-padded month
and day, a dash, and the uppercase base-36 rendering of the first up to four
fractional digits of the random value; the token has exactly 4 characters
only when the base-36 expansion of the random double has at least 4
fractional digits, and fewer otherwise. -/
theorem c9_booking_code_format (year month day : Nat) (digits : List Nat) :
    generateBookingCode year month day digits =
      String.mk ("TRP-".toList ++ Nat.toDigits 10 year ++
        padTwo (Nat.toDigits 10 month) ++ padTwo (Nat.toDigits 10 day) ++
        '-' :: ((digits.take 4).map (fun k => (digit36Char k).toUpper))) ∧
    ((digits.take 4).map (fun k => (digit36Char k).toUpper)).length =
      min 4 digits.length := by
  constructor
  · cases digits with
    | nil => rfl
    | cons d ds =>
      simp only [generateBookingCode, jsRandomString36, List.drop_succ_cons,
        List.drop_zero, ← List.map_take, List.map_map]
      rfl
  · simp [List.length_take]

/-- C4 counterexample: saving the route Aba to Benin while the reverse route
Benin to Aba already exists with fares 100 and 80 leaves the reverse fares at
100 and 80, not at the newly saved 200 and 150. -/
theorem c4_route_symmetry_counterexample :
    saveRoute dbRev 1 2 1 (some 200) (some 150) = .ok dbRevAfter ∧
    findRouteBy dbRevAfter 2 1 1 = some ⟨7, 2, 1, 1, some 100, some 80⟩ ∧
    (some (100 : Int) : Option Int) ≠ some 200 := by
  refine ⟨by decide, by decide, by decide⟩

/-- After an upsert, the saved direction resolves to a row carrying exactly
the saved fares. -/
theorem upsertRoute_finds_self (db : AppDB) (dep dest veh : Nat)
    (pa pn : Option Int) :
    ∃ fr, findRouteBy (upsertRoute db dep dest veh pa pn) dep dest veh = some fr ∧
      fr.priceAc = pa ∧ fr.priceNoAc = pn := by
  unfold upsertRoute
  cases h : findRouteBy db dep dest veh with
  | none =>
    refine ⟨⟨db.nextRouteId, dep, dest, veh, pa, pn⟩, ?_, rfl, rfl⟩
    unfold findRouteBy at h ⊢
    simp only [h, List.find?_append, Option.none_or]
    simp
  | some r =>
    refine ⟨{ r with priceAc := pa, priceNoAc := pn }, ?_, rfl, rfl⟩
    unfold findRouteBy at h ⊢
    simp only
    rw [find?_map_pred _ _ _ (by intro x hx; by_cases hid : x.id = r.id <;> simp [hid]), h]
    simp

/-- An upsert of one direction leaves the lookup of every other direction
unchanged, provided route rowids are distinct. -/
theorem upsertRoute_other (db : AppDB) (dep dest veh a b c : Nat)
    (pa pn : Option Int)
    (hnodup : (db.routes.map Route.id).Nodup)
    (hdiff : ¬(a = dep ∧ b = dest ∧ c = veh)) :
    findRouteBy (upsertRoute db dep dest veh pa pn) a b c =
      findRouteBy db a b c := by
  unfold upsertRoute
  cases h : findRouteBy db dep dest veh with
  | none =>
    unfold findRouteBy
    simp only [List.find?_append]
    have hnew : (fun r : Route =>
        r.departureId == a && r.destinationId == b && r.vehicleId == c)
        ⟨db.nextRouteId, dep, dest, veh, pa, pn⟩ = false := by
      simp only [Bool.and_eq_false_iff, beq_eq_false_iff_ne, ne_eq]
      by_cases h1 : dep = a
      · by_cases h2 : dest = b
        · right
          intro hc
          exact hdiff ⟨h1.symm, h2.symm, hc.symm⟩
        · left; right; exact h2
      · left; left; exact h1
    simp [List.find?_cons, hnew, Option.or_none]
  | some r =>
    unfold findRouteBy at h ⊢
    simp only
    rw [find?_map_pred _ _ _ (by intro x hx; by_cases hid : x.id = r.id <;> simp [hid])]
    cases hv : db.routes.find? (fun r : Route =>
        r.departureId == a && r.destinationId == b && r.vehicleId == c) with
    | none => rfl
    | some rv =>
      have hrmem := List.mem_of_find?_eq_some h
      have hvmem := List.mem_of_find?_eq_some hv
      have hne : rv.id ≠ r.id := by
        intro hid
        have : rv = r :=
          List.inj_on_of_nodup_map hnodup hvmem hrmem hid
        subst this
        have h1 := List.find?_some h
        have h2 := List.find?_some hv
        simp only [Bool.and_eq_true, beq_iff_eq] at h1 h2
        exact hdiff ⟨h2.1.1.symm.trans h1.1.1, h2.1.2.symm.trans h1.1.2,
          h2.2.symm.trans h1.2⟩
      simp [hne]

/-- Shape of an upsert when the direction is absent: the row is appended. -/
theorem upsertRoute_none (db : AppDB) (dep dest veh : Nat) (pa pn : Option Int)
    (h : findRouteBy db dep dest veh = none) :
    upsertRoute db dep dest veh pa pn =
      { db with routes := db.routes ++ [⟨db.nextRouteId, dep, dest, veh, pa, pn⟩], nextRouteId := db.nextRouteId + 1 } := by
  unfold upsertRoute
  rw [h]

/-- C4 amended: saving a route (A to B, vehicle V, fares F) with A distinct
from B creates or updates the forward direction with the fares F, while the
reverse direction is created with the fares F only when absent; an existing
reverse route is left exactly as it was, keeping its previous fares. -/
theorem c4_route_symmetry_amended (db : AppDB) (dep dest veh : Nat)
    (pa pn : Option Int) (hne : dep ≠ dest)
    (hnodup : (db.routes.map Route.id).Nodup) :
    ∃ db', saveRoute db dep dest veh pa pn = .ok db' ∧
      (∃ fr, findRouteBy db' dep dest veh = some fr ∧
        fr.priceAc = pa ∧ fr.priceNoAc = pn) ∧
      (∀ rv, findRouteBy db dest dep veh = some rv →
        findRouteBy db' dest dep veh = some rv) ∧
      (findRouteBy db dest dep veh = none →
        ∃ rv, findRouteBy db' dest dep veh = some rv ∧
          rv.priceAc = pa ∧ rv.priceNoAc = pn) := by
  have hdiff : ¬(dest = dep ∧ dep = dest ∧ veh = veh) :=
    fun h => hne h.1.symm
  have hrev1 : findRouteBy (upsertRoute db dep dest veh pa pn) dest dep veh =
      findRouteBy db dest dep veh :=
    upsertRoute_other db dep dest veh dest dep veh pa pn hnodup hdiff
  obtain ⟨fr, hfr, hfa, hfn⟩ := upsertRoute_finds_self db dep dest veh pa pn
  cases hrev : findRouteBy db dest dep veh with
  | some rv =>
    refine ⟨upsertRoute db dep dest veh pa pn, ?_, ⟨fr, hfr, hfa, hfn⟩, ?_, ?_⟩
    · simp only [saveRoute, if_neg hne]
      rw [hrev1, hrev]
      simp
    · intro rv' hrv'
      rw [hrev1, hrev]
      exact hrv'
    · intro hnone
      cases hnone
  | none =>
    have hnone1 : findRouteBy (upsertRoute db dep dest veh pa pn) dest dep veh =
        none := by rw [hrev1, hrev]
    refine ⟨upsertRoute (upsertRoute db dep dest veh pa pn) dest dep veh pa pn,
      ?_, ?_, ?_, ?_⟩
    · simp only [saveRoute, if_neg hne]
      rw [hnone1]
      simp
    · rw [upsertRoute_none _ dest dep veh pa pn hnone1]
      refine ⟨fr, ?_, hfa, hfn⟩
      unfold findRouteBy at hfr ⊢
      simp only [List.find?_append, hfr, Option.or_some]
    · intro rv hrv
      cases hrv
    · intro _
      exact upsertRoute_finds_self (upsertRoute db dep dest veh pa pn) dest dep veh pa pn

/-- Closed instance of the amended route-saving theorem on the sample image,
where both directions already exist. -/
theorem c4_route_symmetry_amended_witness :
    ∃ db', saveRoute dbSample 1 2 1 (some 5) (some 6) = .ok db' ∧
      (∃ fr, findRouteBy db' 1 2 1 = some fr ∧
        fr.priceAc = some 5 ∧ fr.priceNoAc = some 6) ∧
      (∀ rv, findRouteBy dbSample 2 1 1 = some rv →
        findRouteBy db' 2 1 1 = some rv) ∧
      (findRouteBy dbSample 2 1 1 = none →
        ∃ rv, findRouteBy db' 2 1 1 = some rv ∧
          rv.priceAc = some 5 ∧ rv.priceNoAc = some 6) :=
  c4_route_symmetry_amended dbSample 1 2 1 (some 5) (some 6)
    (by decide) (by decide)

/-- Capacity lookups only read trips, routes and vehicles. -/
theorem capacityOfTrip_congr (db db' : AppDB) (ht : db'.trips = db.trips)
    (hr : db'.routes = db.routes) (hv : db'.vehicles = db.vehicles) (tid : Nat) :
    capacityOfTrip db' tid = capacityOfTrip db tid := by
  unfold capacityOfTrip
  rw [ht, hr, hv]

/-- Passenger counts only read the passengers table. -/
theorem passengerCount_congr (db db' : AppDB)
    (hp : db'.passengers = db.passengers) (tid : Nat) :
    passengerCount db' tid = passengerCount db tid := by
  unfold passengerCount
  rw [hp]

/-- The capacity invariant transfers between images agreeing on the tables it
reads. -/
theorem capInv_of_eq (db db' : AppDB) (ht : db'.trips = db.trips)
    (hr : db'.routes = db.routes) (hv : db'.vehicles = db.vehicles)
    (hp : db'.passengers = db.passengers) (h : CapInv db) : CapInv db' := by
  intro t htmem
  have hbase := h t (by rw [ht] at htmem; exact htmem)
  unfold tripWithinCap at hbase ⊢
  rw [capacityOfTrip_congr db db' ht hr hv, passengerCount_congr db db' hp]
  exact hbase

/-- Driver upserts leave every table but drivers, and every counter but the
driver counter, unchanged. -/
theorem upsertDriver_core (db : AppDB) (n p vn : String) :
    (upsertDriver db n p vn).1.places = db.places ∧
    (upsertDriver db n p vn).1.vehicles = db.vehicles ∧
    (upsertDriver db n p vn).1.routes = db.routes ∧
    (upsertDriver db n p vn).1.trips = db.trips ∧
    (upsertDriver db n p vn).1.passengers = db.passengers ∧
    (upsertDriver db n p vn).1.nextTripId = db.nextTripId ∧
    (upsertDriver db n p vn).1.nextPassengerId = db.nextPassengerId := by
  unfold upsertDriver
  cases hfind : db.drivers.find? (fun d => d.phone == p) <;> simp

/-- The driver rowid returned by an upsert is present afterwards. -/
theorem upsertDriver_id_present (db : AppDB) (n p vn : String) :
    (upsertDriver db n p vn).1.drivers.any
      (fun d => d.id == (upsertDriver db n p vn).2) = true := by
  unfold upsertDriver
  cases hfind : db.drivers.find? (fun d => d.phone == p) with
  | none => simp
  | some d =>
    have hmem := List.mem_of_find?_eq_some hfind
    simp only [List.any_map, List.any_eq_true]
    refine ⟨d, hmem, ?_⟩
    by_cases hid : d.id = d.id <;> simp

/-- A driver rowid present before an upsert is still present afterwards. -/
theorem upsertDriver_preserves_id (db : AppDB) (n p vn : String) (i : Nat)
    (h : db.drivers.any (fun d => d.id == i) = true) :
    (upsertDriver db n p vn).1.drivers.any (fun d => d.id == i) = true := by
  unfold upsertDriver
  cases hfind : db.drivers.find? (fun d => d.phone == p) with
  | none =>
    simp only [List.any_append, h, Bool.true_or]
  | some d =>
    simp only [List.any_map, List.any_eq_true] at h ⊢
    obtain ⟨x, hx, hxi⟩ := h
    refine ⟨x, hx, ?_⟩
    by_cases hid : x.id = d.id <;> simp [hid] <;> simp only [beq_iff_eq] at hxi <;> omega

/-- The bound carried by a within-capacity trip. -/
theorem tripWithinCap_le (db : AppDB) (t : Trip) (cap : Nat)
    (h : tripWithinCap db t = true)
    (hcap : capacityOfTrip db t.id = some cap) :
    passengerCount db t.id ≤ cap := by
  unfold tripWithinCap at h
  rw [hcap] at h
  simpa using h

/-- Establishing the within-capacity flag from the bound. -/
theorem tripWithinCap_of_le (db : AppDB) (t : Trip)
    (h : ∀ cap, capacityOfTrip db t.id = some cap →
      passengerCount db t.id ≤ cap) : tripWithinCap db t = true := by
  unfold tripWithinCap
  cases hcap : capacityOfTrip db t.id with
  | none => rfl
  | some cap => simpa using h cap hcap

/-- A successful passenger insert appends exactly one row and bumps the
passenger counter. -/
theorem insertPassenger_ok (db : AppDB) (tid : Nat) (nm ph g : String)
    (db' : AppDB) (pid : Nat)
    (h : insertPassenger db tid nm ph g = .ok (db', pid)) :
    db' = { db with passengers := db.passengers ++ [⟨db.nextPassengerId, tid, nm, ph, g⟩], nextPassengerId := db.nextPassengerId + 1 } ∧
    pid = db.nextPassengerId := by
  unfold insertPassenger at h
  by_cases hn : (db.trips.find? (fun t => t.id == tid)).isNone
  · rw [if_pos hn] at h
    cases h
  · rw [if_neg hn] at h
    cases hcap : capacityOfTrip db tid with
    | none =>
      simp only [hcap] at h
      cases h
      exact ⟨rfl, rfl⟩
    | some cap =>
      simp only [hcap] at h
      by_cases hf : cap ≤ passengerCount db tid
      · rw [if_pos hf] at h
        cases h
      · rw [if_neg hf] at h
        cases h
        exact ⟨rfl, rfl⟩

/-- A successful passenger insert implies the trip was strictly below
capacity, whenever the capacity resolves. -/
theorem insertPassenger_lt_cap (db : AppDB) (tid : Nat) (nm ph g : String)
    (db' : AppDB) (pid : Nat) (cap : Nat)
    (hcap : capacityOfTrip db tid = some cap)
    (h : insertPassenger db tid nm ph g = .ok (db', pid)) :
    passengerCount db tid < cap := by
  unfold insertPassenger at h
  by_cases hn : (db.trips.find? (fun t => t.id == tid)).isNone
  · rw [if_pos hn] at h
    cases h
  · rw [if_neg hn] at h
    simp only [hcap] at h
    by_cases hf : cap ≤ passengerCount db tid
    · rw [if_pos hf] at h
      cases h
    · omega

/-- A capacity that resolves means the trip row exists. -/
theorem capacityOfTrip_some_trip (db : AppDB) (tid : Nat) (cap : Nat)
    (hcap : capacityOfTrip db tid = some cap) :
    (db.trips.find? (fun t => t.id == tid)).isNone = false := by
  unfold capacityOfTrip at hcap
  cases hfind : db.trips.find? (fun t => t.id == tid) with
  | none => rw [hfind] at hcap; cases hcap
  | some t => simp

/-- Inserting into a trip that is exactly at its resolved capacity fails with
the fully-booked error of the trigger. -/
theorem insertPassenger_full (db : AppDB) (tid : Nat) (nm ph g : String)
    (cap : Nat) (hcap : capacityOfTrip db tid = some cap)
    (hfull : cap ≤ passengerCount db tid) :
    insertPassenger db tid nm ph g = .error .fullyBooked := by
  unfold insertPassenger
  rw [if_neg (by rw [capacityOfTrip_some_trip db tid cap hcap]; exact Bool.false_ne_true)]
  simp only [hcap]
  rw [if_pos hfull]

/-- bookPassenger converts the fully-booked error into the structured full
outcome with the image unchanged. -/
theorem bookPassenger_full (db : AppDB) (tid : Nat) (nm ph g : String)
    (cap : Nat) (hcap : capacityOfTrip db tid = some cap)
    (hfull : cap ≤ passengerCount db tid) :
    bookPassenger db tid nm ph g = .ok (db, .full) := by
  unfold bookPassenger
  rw [insertPassenger_full db tid nm.trim ph.trim g cap hcap hfull]

/-- The capacity invariant is preserved by a successful passenger insert. -/
theorem capInv_insertPassenger (db : AppDB) (tid : Nat) (nm ph g : String)
    (db' : AppDB) (pid : Nat) (hinv : CapInv db)
    (h : insertPassenger db tid nm ph g = .ok (db', pid)) : CapInv db' := by
  obtain ⟨hdb, -⟩ := insertPassenger_ok db tid nm ph g db' pid h
  subst hdb
  intro t htmem
  have htm : t ∈ db.trips := htmem
  apply tripWithinCap_of_le
  intro cap hcap
  have hcap' : capacityOfTrip db t.id = some cap := hcap
  have hbase := tripWithinCap_le db t cap (hinv t htm) hcap'
  show passengerCount { db with passengers := db.passengers ++ [⟨db.nextPassengerId, tid, nm, ph, g⟩], nextPassengerId := db.nextPassengerId + 1 } t.id ≤ cap
  unfold passengerCount at hbase ⊢
  simp only [List.countP_append, List.countP_singleton]
  by_cases heq : tid = t.id
  · have hcap2 : capacityOfTrip db tid = some cap := by rw [heq]; exact hcap'
    have hlt := insertPassenger_lt_cap db tid nm ph g _ pid cap hcap2 h
    unfold passengerCount at hlt
    rw [heq] at hlt
    have hb : ((⟨db.nextPassengerId, tid, nm, ph, g⟩ : Passenger).tripId == t.id) = true := by
      simp [heq]
    rw [hb, if_pos rfl]
    omega
  · have hb : ((⟨db.nextPassengerId, tid, nm, ph, g⟩ : Passenger).tripId == t.id) = false := by
      simp [heq]
    rw [hb]
    simpa using hbase

/-- Outcomes of bookPassenger: a successful insert, or the caught full error
with the image returned unchanged. -/
theorem bookPassenger_ok_cases (db : AppDB) (tid : Nat) (nm ph g : String)
    (db' : AppDB) (r : BookOutcome)
    (h : bookPassenger db tid nm ph g = .ok (db', r)) :
    (∃ pid, insertPassenger db tid nm.trim ph.trim g = .ok (db', pid) ∧
      r = .booked pid) ∨
    (insertPassenger db tid nm.trim ph.trim g = .error .fullyBooked ∧
      db' = db ∧ r = .full) := by
  unfold bookPassenger at h
  cases hi : insertPassenger db tid nm.trim ph.trim g with
  | ok pr =>
    obtain ⟨db1, pid⟩ := pr
    rw [hi] at h
    cases h
    exact .inl ⟨pid, rfl, rfl⟩
  | error e =>
    rw [hi] at h
    cases e with
    | fullyBooked =>
      cases h
      exact .inr ⟨rfl, rfl, rfl⟩
    | notInitialised => cases h
    | txAlreadyOpen => cases h
    | backingStore => cases h
    | fkViolation => cases h
    | nullEngine => cases h
    | other msg => cases h

/-- The capacity invariant is preserved by bookPassenger. -/
theorem capInv_bookPassenger (db : AppDB) (tid : Nat) (nm ph g : String)
    (db' : AppDB) (r : BookOutcome) (hinv : CapInv db)
    (h : bookPassenger db tid nm ph g = .ok (db', r)) : CapInv db' := by
  rcases bookPassenger_ok_cases db tid nm ph g db' r h with
    ⟨pid, hi, -⟩ | ⟨-, hdb, -⟩
  · exact capInv_insertPassenger db tid nm.trim ph.trim g db' pid hinv hi
  · subst hdb
    exact hinv

/-- No passenger row references the next trip rowid while foreign keys and
freshness hold. -/
theorem countP_fresh (db : AppDB)
    (hwfp : ∀ p ∈ db.passengers, db.trips.any (fun t => t.id == p.tripId) = true)
    (hwft : ∀ t ∈ db.trips, t.id < db.nextTripId) :
    db.passengers.countP (fun p => p.tripId == db.nextTripId) = 0 := by
  rw [List.countP_eq_zero]
  intro p hp
  have h1 := hwfp p hp
  rw [List.any_eq_true] at h1
  obtain ⟨t, ht, hteq⟩ := h1
  have h2 := hwft t ht
  simp only [beq_iff_eq] at hteq ⊢
  omega

/-- Searching for an old trip rowid ignores an appended trip row. -/
theorem find?_trips_append_old (trips : List Trip) (T : Trip) (tid : Nat)
    (hsome : (trips.find? (fun t => t.id == tid)).isSome = true) :
    (trips ++ [T]).find? (fun t => t.id == tid) =
      trips.find? (fun t => t.id == tid) := by
  rw [List.find?_append]
  obtain ⟨x, hx⟩ := Option.isSome_iff_exists.mp hsome
  rw [hx]
  rfl

/-- Searching for the rowid of a freshly appended trip finds exactly it. -/
theorem find?_trips_append_fresh (trips : List Trip) (T : Trip)
    (hfresh : ∀ t ∈ trips, (t.id == T.id) = false) :
    (trips ++ [T]).find? (fun t => t.id == T.id) = some T := by
  rw [List.find?_append]
  have hnone : trips.find? (fun t => t.id == T.id) = none :=
    List.find?_eq_none.mpr (by intro x hx; simp [hfresh x hx])
  rw [hnone]
  simp [List.find?_cons]

/-- The capacity invariant is preserved by creating a trip, under foreign-key
and freshness well-formedness. -/
theorem capInv_createTrip (db : AppDB) (code : String) (rid did : Nat)
    (vn : String) (ac : Bool) (now : String)
    (hwfp : ∀ p ∈ db.passengers, db.trips.any (fun t => t.id == p.tripId) = true)
    (hwft : ∀ t ∈ db.trips, t.id < db.nextTripId)
    (hinv : CapInv db) :
    CapInv (createTrip db code rid did vn ac now).1 := by
  intro t htmem
  apply tripWithinCap_of_le
  intro cap hcap
  have hmem' : t ∈ db.trips ++ [⟨db.nextTripId, code, rid, did, vn, ac, now⟩] :=
    htmem
  rcases List.mem_append.mp hmem' with hold | hnew
  · have hsome : (db.trips.find? (fun x => x.id == t.id)).isSome = true :=
      List.find?_isSome.mpr ⟨t, hold, by simp⟩
    have hfind := find?_trips_append_old db.trips
      ⟨db.nextTripId, code, rid, did, vn, ac, now⟩ t.id hsome
    have hcap2 : capacityOfTrip { db with trips := db.trips ++ [⟨db.nextTripId, code, rid, did, vn, ac, now⟩], nextTripId := db.nextTripId + 1 } t.id = some cap := hcap
    unfold capacityOfTrip at hcap2
    dsimp only at hcap2
    rw [hfind] at hcap2
    have hcap' : capacityOfTrip db t.id = some cap := hcap2
    exact tripWithinCap_le db t cap (hinv t hold) hcap'
  · have hT : t = ⟨db.nextTripId, code, rid, did, vn, ac, now⟩ := by
      simpa using hnew
    have hcnt : passengerCount (createTrip db code rid did vn ac now).1 t.id = 0 := by
      show db.passengers.countP (fun p => p.tripId == t.id) = 0
      rw [hT]
      exact countP_fresh db hwfp hwft
    rw [hcnt]
    exact Nat.zero_le cap

/-- The joins of a trip row are unaffected by a driver upsert, as long as the
referenced driver already exists. -/
theorem tripJoins_upsertDriver (db : AppDB) (n p vn : String) (t : Trip)
    (hd : db.drivers.any (fun d => d.id == t.driverId) = true) :
    tripJoins (upsertDriver db n p vn).1 t = tripJoins db t := by
  obtain ⟨hpl, hveh, hrt, -, -, -, -⟩ := upsertDriver_core db n p vn
  unfold tripJoins
  rw [hpl, hveh, hrt]
  have h1 : ((upsertDriver db n p vn).1.drivers.find?
      (fun d => d.id == t.driverId)).isSome = true := by
    rw [List.find?_isSome]
    have hpres := upsertDriver_preserves_id db n p vn t.driverId hd
    rw [List.any_eq_true] at hpres
    exact hpres
  have h2 : (db.drivers.find? (fun d => d.id == t.driverId)).isSome = true := by
    rw [List.find?_isSome]
    rw [List.any_eq_true] at hd
    exact hd
  cases hr : db.routes.find? (fun r => r.id == t.routeId) with
  | none => rfl
  | some r => rw [h1, h2]

/-- Trip lookup by booking code is unaffected by a driver upsert when every
trip references an existing driver. -/
theorem getTrip_upsertDriver (db : AppDB) (n p vn code : String)
    (hwfd : ∀ t ∈ db.trips, db.drivers.any (fun d => d.id == t.driverId) = true) :
    getTripByBookingCode (upsertDriver db n p vn).1 code =
      getTripByBookingCode db code := by
  obtain ⟨-, -, -, htr, -, -, -⟩ := upsertDriver_core db n p vn
  unfold getTripByBookingCode
  rw [htr]
  apply find?_congr
  intro t ht
  rw [tripJoins_upsertDriver db n p vn t (hwfd t ht)]

/-- C1: on a well-formed image satisfying the capacity invariant, every
committed bookPassenger or bookTrip call preserves the invariant, and a call
that would insert one more passenger than the capacity of the vehicle of the
trip allows returns the non-throwing full outcome with no passenger row
inserted: the passengers table is exactly as before. -/
theorem c1_capacity_invariant (db : AppDB) (hwf : WF db) (hinv : CapInv db)
    (tid : Nat) (nm ph g : String) (a : BookTripArgs) (now : String) :
    (∀ db' r, bookPassenger db tid nm ph g = .ok (db', r) →
      CapInv db' ∧
      (∀ cap, capacityOfTrip db tid = some cap → passengerCount db tid = cap →
        r = .full ∧ db' = db)) ∧
    (∀ db' r, bookTrip db a now = .ok (db', r) →
      CapInv db' ∧
      (∀ t cap, getTripByBookingCode db a.bookingCode = some t →
        capacityOfTrip db t.id = some cap → passengerCount db t.id = cap →
        r = .full ∧ db'.passengers = db.passengers)) := by
  obtain ⟨hpl, hveh, hrt, htr, hpa, hnt, hnp⟩ :=
    upsertDriver_core db a.driverName a.driverPhone a.vehicleNo
  have hinv1 : CapInv (upsertDriver db a.driverName a.driverPhone a.vehicleNo).1 :=
    capInv_of_eq db _ htr hrt hveh hpa hinv
  constructor
  · intro db' r h
    refine ⟨capInv_bookPassenger db tid nm ph g db' r hinv h, ?_⟩
    intro cap hcap hcnt
    have hfull := bookPassenger_full db tid nm ph g cap hcap (by omega)
    rw [hfull] at h
    cases h
    exact ⟨rfl, rfl⟩
  · intro db' r h
    constructor
    · cases hget : getTripByBookingCode
          (upsertDriver db a.driverName a.driverPhone a.vehicleNo).1
          a.bookingCode with
      | some t =>
        simp only [bookTrip, hget] at h
        cases hbp : bookPassenger
            (upsertDriver db a.driverName a.driverPhone a.vehicleNo).1 t.id
            a.passengerName a.passengerPhone a.gender with
        | ok pr =>
          obtain ⟨db3, out⟩ := pr
          rw [hbp] at h
          have hinv3 := capInv_bookPassenger _ _ _ _ _ db3 out hinv1 hbp
          cases out with
          | full => cases h; exact hinv3
          | booked pid => cases h; exact hinv3
        | error e =>
          rw [hbp] at h
          cases h
      | none =>
        simp only [bookTrip, hget] at h
        have hwfp1 : ∀ p ∈ (upsertDriver db a.driverName a.driverPhone a.vehicleNo).1.passengers,
            ((upsertDriver db a.driverName a.driverPhone a.vehicleNo).1.trips.any
              (fun t => t.id == p.tripId)) = true := by
          simp only [hpa, htr]
          exact hwf.passTrip
        have hwft1 : ∀ t ∈ (upsertDriver db a.driverName a.driverPhone a.vehicleNo).1.trips,
            t.id < (upsertDriver db a.driverName a.driverPhone a.vehicleNo).1.nextTripId := by
          simp only [htr, hnt]
          exact hwf.tripFresh
        have hinv2 := capInv_createTrip
          (upsertDriver db a.driverName a.driverPhone a.vehicleNo).1
          a.bookingCode a.routeId
          (upsertDriver db a.driverName a.driverPhone a.vehicleNo).2
          a.vehicleNo a.hasAc now hwfp1 hwft1 hinv1
        cases hbp : bookPassenger
            (createTrip (upsertDriver db a.driverName a.driverPhone a.vehicleNo).1
              a.bookingCode a.routeId
              (upsertDriver db a.driverName a.driverPhone a.vehicleNo).2
              a.vehicleNo a.hasAc now).1
            (createTrip (upsertDriver db a.driverName a.driverPhone a.vehicleNo).1
              a.bookingCode a.routeId
              (upsertDriver db a.driverName a.driverPhone a.vehicleNo).2
              a.vehicleNo a.hasAc now).2
            a.passengerName a.passengerPhone a.gender with
        | ok pr =>
          obtain ⟨db3, out⟩ := pr
          rw [hbp] at h
          have hinv3 := capInv_bookPassenger _ _ _ _ _ db3 out hinv2 hbp
          cases out with
          | full => cases h; exact hinv3
          | booked pid => cases h; exact hinv3
        | error e =>
          rw [hbp] at h
          cases h
    · intro t cap hget0 hcap hcnt
      have hget1 : getTripByBookingCode
          (upsertDriver db a.driverName a.driverPhone a.vehicleNo).1
          a.bookingCode = some t := by
        rw [getTrip_upsertDriver db a.driverName a.driverPhone a.vehicleNo
          a.bookingCode hwf.tripDriver, hget0]
      simp only [bookTrip, hget1] at h
      have hcap1 := (capacityOfTrip_congr db
        (upsertDriver db a.driverName a.driverPhone a.vehicleNo).1
        htr hrt hveh t.id).trans hcap
      have hcnt1 := (passengerCount_congr db
        (upsertDriver db a.driverName a.driverPhone a.vehicleNo).1
        hpa t.id).trans hcnt
      have hfull := bookPassenger_full
        (upsertDriver db a.driverName a.driverPhone a.vehicleNo).1 t.id
        a.passengerName a.passengerPhone a.gender cap hcap1 (by omega)
      rw [hfull] at h
      cases h
      exact ⟨rfl, hpa⟩

/-- Closed instance of the capacity theorem: booking a third passenger onto
the full two-seat sample trip returns the full outcome with the image
unchanged. -/
theorem c1_capacity_invariant_witness :
    bookPassenger dbFull 1 "Chidi" "083" "M" = .ok (dbFull, .full) ∧
    (CapInv dbFull ∧
      (∀ cap, capacityOfTrip dbFull 1 = some cap →
        passengerCount dbFull 1 = cap →
        BookOutcome.full = .full ∧ dbFull = dbFull)) :=
  ⟨by decide,
    (c1_capacity_invariant dbFull
      ⟨by decide, by decide, by decide, by decide⟩ (by decide)
      1 "Chidi" "083" "M" argsA "t").1 dbFull .full (by decide)⟩

/-- A below-capacity insert succeeds and appends exactly one row. -/
theorem insertPassenger_succeeds (db0 : AppDB) (tid : Nat) (nm ph g : String)
    (cap : Nat) (hcap : capacityOfTrip db0 tid = some cap)
    (hlt : passengerCount db0 tid < cap) :
    insertPassenger db0 tid nm ph g =
      .ok ({ db0 with passengers := db0.passengers ++ [⟨db0.nextPassengerId, tid, nm, ph, g⟩], nextPassengerId := db0.nextPassengerId + 1 }, db0.nextPassengerId) := by
  unfold insertPassenger
  rw [if_neg (by rw [capacityOfTrip_some_trip db0 tid cap hcap]; exact Bool.false_ne_true)]
  simp only [hcap]
  rw [if_neg (by omega)]

/-- A below-capacity booking succeeds with the booked outcome. -/
theorem bookPassenger_succeeds (db0 : AppDB) (tid : Nat) (nm ph g : String)
    (cap : Nat) (hcap : capacityOfTrip db0 tid = some cap)
    (hlt : passengerCount db0 tid < cap) :
    bookPassenger db0 tid nm ph g =
      .ok ({ db0 with passengers := db0.passengers ++ [⟨db0.nextPassengerId, tid, nm.trim, ph.trim, g⟩], nextPassengerId := db0.nextPassengerId + 1 }, .booked db0.nextPassengerId) := by
  unfold bookPassenger
  rw [insertPassenger_succeeds db0 tid nm.trim ph.trim g cap hcap hlt]

/-- First booking against a fresh booking code: the driver is upserted, a
trip row with the next trip rowid is created, the passenger is inserted, and
the call succeeds; every other table is untouched. -/
theorem bookTrip_new_code (db : AppDB) (a : BookTripArgs) (now : String)
    (hwf : WF db)
    (hnocode : ∀ t ∈ db.trips, (t.bookingCode == a.bookingCode) = false)
    (r : Route) (hr : db.routes.find? (fun x => x.id == a.routeId) = some r)
    (v : Vehicle) (hv : db.vehicles.find? (fun x => x.id == r.vehicleId) = some v)
    (hcap : 0 < v.capacity) :
    ∃ db1 did sr,
      bookTrip db a now = .ok (db1, .success db.nextTripId db.nextPassengerId sr) ∧
      db1.trips = db.trips ++ [⟨db.nextTripId, a.bookingCode, a.routeId, did, a.vehicleNo, a.hasAc, now⟩] ∧
      db1.passengers = db.passengers ++ [⟨db.nextPassengerId, db.nextTripId, a.passengerName.trim, a.passengerPhone.trim, a.gender⟩] ∧
      db1.routes = db.routes ∧ db1.places = db.places ∧ db1.vehicles = db.vehicles ∧
      db1.nextTripId = db.nextTripId + 1 ∧
      db1.nextPassengerId = db.nextPassengerId + 1 ∧
      (∀ t ∈ db1.trips, db1.drivers.any (fun d => d.id == t.driverId) = true) := by
  obtain ⟨hpl, hveh, hrt, htr, hpa, hnt, hnp⟩ :=
    upsertDriver_core db a.driverName a.driverPhone a.vehicleNo
  have hidp := upsertDriver_id_present db a.driverName a.driverPhone a.vehicleNo
  have hpres := upsertDriver_preserves_id db a.driverName a.driverPhone a.vehicleNo
  have hget : getTripByBookingCode
      (upsertDriver db a.driverName a.driverPhone a.vehicleNo).1
      a.bookingCode = none := by
    unfold getTripByBookingCode
    rw [htr]
    refine List.find?_eq_none.mpr ?_
    intro t ht
    simp [hnocode t ht]
  generalize hU : upsertDriver db a.driverName a.driverPhone a.vehicleNo = U
    at hpl hveh hrt htr hpa hnt hnp hidp hpres hget
  obtain ⟨Ud, did⟩ := U
  simp only at hpl hveh hrt htr hpa hnt hnp hidp hpres hget
  have hcapT : capacityOfTrip
      { Ud with trips := Ud.trips ++ [⟨Ud.nextTripId, a.bookingCode, a.routeId, did, a.vehicleNo, a.hasAc, now⟩], nextTripId := Ud.nextTripId + 1 }
      Ud.nextTripId = some v.capacity := by
    unfold capacityOfTrip
    have hfindT : (Ud.trips ++ [(⟨Ud.nextTripId, a.bookingCode, a.routeId, did, a.vehicleNo, a.hasAc, now⟩ : Trip)]).find?
        (fun t => t.id == Ud.nextTripId) =
        some ⟨Ud.nextTripId, a.bookingCode, a.routeId, did, a.vehicleNo, a.hasAc, now⟩ := by
      refine find?_trips_append_fresh Ud.trips
        ⟨Ud.nextTripId, a.bookingCode, a.routeId, did, a.vehicleNo, a.hasAc, now⟩ ?_
      intro t ht
      show (t.id == Ud.nextTripId) = false
      rw [htr] at ht
      have h2 := hwf.tripFresh t ht
      rw [hnt]
      simp only [beq_eq_false_iff_ne, ne_eq]
      omega
    simp only [hfindT, hrt, hr, hveh, hv]
  have hcntT : passengerCount
      { Ud with trips := Ud.trips ++ [⟨Ud.nextTripId, a.bookingCode, a.routeId, did, a.vehicleNo, a.hasAc, now⟩], nextTripId := Ud.nextTripId + 1 }
      Ud.nextTripId = 0 := by
    unfold passengerCount
    show Ud.passengers.countP (fun p => p.tripId == Ud.nextTripId) = 0
    rw [hpa, hnt]
    exact countP_fresh db hwf.passTrip hwf.tripFresh
  have hbp := bookPassenger_succeeds
    { Ud with trips := Ud.trips ++ [⟨Ud.nextTripId, a.bookingCode, a.routeId, did, a.vehicleNo, a.hasAc, now⟩], nextTripId := Ud.nextTripId + 1 }
    Ud.nextTripId a.passengerName a.passengerPhone a.gender v.capacity hcapT
    (by rw [hcntT]; exact hcap)
  simp only [bookTrip, hU, hget, createTrip, hbp]
  rw [hnt, hnp]
  refine ⟨_, did, _, rfl, ?_, ?_, hrt, hpl, hveh, rfl, rfl, ?_⟩
  · show (Ud.trips ++ [⟨db.nextTripId, a.bookingCode, a.routeId, did, a.vehicleNo, a.hasAc, now⟩]) = _
    rw [htr]
  · show Ud.passengers ++ [⟨db.nextPassengerId, db.nextTripId, a.passengerName.trim, a.passengerPhone.trim, a.gender⟩] = _
    rw [hpa]
  · intro t ht
    have ht2 : t ∈ Ud.trips ++ [⟨db.nextTripId, a.bookingCode, a.routeId, did, a.vehicleNo, a.hasAc, now⟩] := ht
    rcases List.mem_append.mp ht2 with hold | hnew
    · rw [htr] at hold
      exact hpres t.driverId (hwf.tripDriver t hold)
    · have hT : t = ⟨db.nextTripId, a.bookingCode, a.routeId, did, a.vehicleNo, a.hasAc, now⟩ := by
        simpa using hnew
      rw [hT]
      exact hidp

/-- Booking against a booking code whose trip exists and is below capacity:
the existing trip is reused (no trip row is created) and one passenger row is
appended. -/
theorem bookTrip_existing (db : AppDB) (a : BookTripArgs) (now : String)
    (T : Trip) (hget0 : getTripByBookingCode db a.bookingCode = some T)
    (cap : Nat) (hcapT : capacityOfTrip db T.id = some cap)
    (hcnt : passengerCount db T.id < cap)
    (hwfd : ∀ t ∈ db.trips, db.drivers.any (fun d => d.id == t.driverId) = true) :
    ∃ db1 sr,
      bookTrip db a now = .ok (db1, .success T.id db.nextPassengerId sr) ∧
      db1.trips = db.trips ∧
      db1.passengers = db.passengers ++ [⟨db.nextPassengerId, T.id, a.passengerName.trim, a.passengerPhone.trim, a.gender⟩] ∧
      db1.routes = db.routes ∧ db1.places = db.places ∧ db1.vehicles = db.vehicles ∧
      db1.nextTripId = db.nextTripId ∧
      db1.nextPassengerId = db.nextPassengerId + 1 ∧
      (∀ t ∈ db1.trips, db1.drivers.any (fun d => d.id == t.driverId) = true) := by
  obtain ⟨hpl, hveh, hrt, htr, hpa, hnt, hnp⟩ :=
    upsertDriver_core db a.driverName a.driverPhone a.vehicleNo
  have hpres := upsertDriver_preserves_id db a.driverName a.driverPhone a.vehicleNo
  have hget1 : getTripByBookingCode
      (upsertDriver db a.driverName a.driverPhone a.vehicleNo).1
      a.bookingCode = some T := by
    rw [getTrip_upsertDriver db a.driverName a.driverPhone a.vehicleNo
      a.bookingCode hwfd, hget0]
  generalize hU : upsertDriver db a.driverName a.driverPhone a.vehicleNo = U
    at hpl hveh hrt htr hpa hnt hnp hpres hget1
  obtain ⟨Ud, did⟩ := U
  simp only at hpl hveh hrt htr hpa hnt hnp hpres hget1
  have hcap1 : capacityOfTrip Ud T.id = some cap :=
    (capacityOfTrip_congr db Ud htr hrt hveh T.id).trans hcapT
  have hcnt1 : passengerCount Ud T.id < cap := by
    rw [passengerCount_congr db Ud hpa T.id]
    exact hcnt
  have hbp := bookPassenger_succeeds Ud T.id a.passengerName a.passengerPhone
    a.gender cap hcap1 hcnt1
  simp only [bookTrip, hU, hget1, hbp]
  rw [hnp]
  refine ⟨_, _, rfl, htr, ?_, hrt, hpl, hveh, hnt, rfl, ?_⟩
  · show Ud.passengers ++ [⟨db.nextPassengerId, T.id, a.passengerName.trim, a.passengerPhone.trim, a.gender⟩] = _
    rw [hpa]
  · intro t ht
    have ht2 : t ∈ Ud.trips := ht
    rw [htr] at ht2
    exact hpres t.driverId (hwfd t ht2)

/-- C5: two bookings with the same fresh booking code and a two-seat vehicle
both succeed, produce exactly one trip row for that code, and attach exactly
two passenger rows to that one trip — the second call reuses the trip created
by the first. -/
theorem c5_trip_reuse (db : AppDB) (hwf : WF db) (a1 a2 : BookTripArgs)
    (now1 now2 : String) (hcode : a2.bookingCode = a1.bookingCode)
    (hnocode : ∀ t ∈ db.trips, (t.bookingCode == a1.bookingCode) = false)
    (r : Route) (hr : db.routes.find? (fun x => x.id == a1.routeId) = some r)
    (hdep : (db.places.find? (fun p => p.id == r.departureId)).isSome = true)
    (hdest : (db.places.find? (fun p => p.id == r.destinationId)).isSome = true)
    (v : Vehicle) (hv : db.vehicles.find? (fun x => x.id == r.vehicleId) = some v)
    (hcap : 2 ≤ v.capacity) :
    ∃ db1 db2 pid1 pid2 sr1 sr2,
      bookTrip db a1 now1 = .ok (db1, .success db.nextTripId pid1 sr1) ∧
      bookTrip db1 a2 now2 = .ok (db2, .success db.nextTripId pid2 sr2) ∧
      db2.trips.countP (fun t => t.bookingCode == a1.bookingCode) = 1 ∧
      passengerCount db2 db.nextTripId = 2 := by
  obtain ⟨db1, did, sr1, hbook1, hT1, hP1, hR1, hPl1, hV1, hNT1, hNP1, hD1⟩ :=
    bookTrip_new_code db a1 now1 hwf hnocode r hr v hv (by omega)
  have hTmem : (⟨db.nextTripId, a1.bookingCode, a1.routeId, did, a1.vehicleNo, a1.hasAc, now1⟩ : Trip) ∈ db1.trips := by
    rw [hT1]
    exact List.mem_append_right _ (by simp)
  have hgetT : getTripByBookingCode db1 a2.bookingCode =
      some ⟨db.nextTripId, a1.bookingCode, a1.routeId, did, a1.vehicleNo, a1.hasAc, now1⟩ := by
    have hdrv := hD1 _ hTmem
    have hdrvS : (db1.drivers.find? (fun d => d.id ==
        (⟨db.nextTripId, a1.bookingCode, a1.routeId, did, a1.vehicleNo, a1.hasAc, now1⟩ : Trip).driverId)).isSome = true := by
      rw [List.find?_isSome]
      rw [List.any_eq_true] at hdrv
      exact hdrv
    have hjoin : tripJoins db1
        ⟨db.nextTripId, a1.bookingCode, a1.routeId, did, a1.vehicleNo, a1.hasAc, now1⟩ = true := by
      unfold tripJoins
      rw [hR1]
      simp only [hr, hPl1, hdep, hdest, hV1, hv, hdrvS]
      simp
    unfold getTripByBookingCode
    rw [hT1, hcode, List.find?_append]
    have hleft : db.trips.find?
        (fun t => t.bookingCode == a1.bookingCode && tripJoins db1 t) = none := by
      refine List.find?_eq_none.mpr ?_
      intro t ht
      simp [hnocode t ht]
    rw [hleft, Option.none_or]
    simp [List.find?_cons, hjoin]
  have hcap1 : capacityOfTrip db1 db.nextTripId = some v.capacity := by
    unfold capacityOfTrip
    have hfind1 : db1.trips.find? (fun t => t.id == db.nextTripId) =
        some ⟨db.nextTripId, a1.bookingCode, a1.routeId, did, a1.vehicleNo, a1.hasAc, now1⟩ := by
      rw [hT1]
      refine find?_trips_append_fresh db.trips
        ⟨db.nextTripId, a1.bookingCode, a1.routeId, did, a1.vehicleNo, a1.hasAc, now1⟩ ?_
      intro t ht
      show (t.id == db.nextTripId) = false
      have h2 := hwf.tripFresh t ht
      simp only [beq_eq_false_iff_ne, ne_eq]
      omega
    simp only [hfind1, hR1, hr, hV1, hv]
  have hcnt1 : passengerCount db1 db.nextTripId = 1 := by
    unfold passengerCount
    rw [hP1, List.countP_append,
      show db.passengers.countP (fun p => p.tripId == db.nextTripId) = 0 from
        countP_fresh db hwf.passTrip hwf.tripFresh]
    simp [List.countP_singleton]
  obtain ⟨db2, sr2, hbook2, hT2, hP2, hR2, hPl2, hV2, hNT2, hNP2, hD2⟩ :=
    bookTrip_existing db1 a2 now2
      ⟨db.nextTripId, a1.bookingCode, a1.routeId, did, a1.vehicleNo, a1.hasAc, now1⟩
      hgetT v.capacity hcap1
      (by show passengerCount db1 db.nextTripId < v.capacity; rw [hcnt1]; omega)
      hD1
  refine ⟨db1, db2, db.nextPassengerId, db1.nextPassengerId, sr1, sr2,
    hbook1, hbook2, ?_, ?_⟩
  · rw [hT2, hT1, List.countP_append,
      show db.trips.countP (fun t => t.bookingCode == a1.bookingCode) = 0 from
        List.countP_eq_zero.mpr (by intro t ht; simp [hnocode t ht])]
    simp [List.countP_singleton]
  · unfold passengerCount
    rw [hP2, List.countP_append]
    have hL : db1.passengers.countP (fun p => p.tripId == db.nextTripId) = 1 := hcnt1
    rw [hL]
    simp [List.countP_singleton]

/-- Closed instance of trip reuse on the sample image: booking Ada and then
Bola with the same fresh code yields one trip row and two passengers. -/
theorem c5_trip_reuse_witness :
    ∃ db1 db2 pid1 pid2 sr1 sr2,
      bookTrip dbSample argsB1 "t1" = .ok (db1, .success dbSample.nextTripId pid1 sr1) ∧
      bookTrip db1 argsB2 "t2" = .ok (db2, .success dbSample.nextTripId pid2 sr2) ∧
      db2.trips.countP (fun t => t.bookingCode == argsB1.bookingCode) = 1 ∧
      passengerCount db2 dbSample.nextTripId = 2 :=
  c5_trip_reuse dbSample ⟨by decide, by decide, by decide, by decide⟩
    argsB1 argsB2 "t1" "t2" rfl (by decide)
    ⟨1, 1, 2, 1, some 100, some 80⟩ (by decide) (by decide) (by decide)
    ⟨1, "Bus", 2⟩ (by decide) (by decide)

end Gnoke
